/-
Verification of the fetch-t request-execution engine (src/fetch/fetch.ts,
src/fetch/defines.ts, src/fetch/constants.ts) against its specification.

The engine is shallowly embedded: JavaScript numbers are `Rat`, dynamic
configuration values are the `JV` universe, thrown values are `JSVal`,
the transport (`fetch`) is an oracle from attempt index to outcome, and
user callbacks that may throw are modelled as behaviour oracles whose
invocation sites mirror the source's try/catch guards.  The retry loop
`fetchWithRetry` is translated as `retryLoopIter`, instrumented with a
ghost attempt counter and an event trace so that ordering and counting
properties can be stated; the control flow is a direct translation of the
source's do/while loop.
-/
import Mathlib

namespace FetchT

/-! ## Error taxonomy (src/fetch/constants.ts, src/fetch/defines.ts) -/

/-- `ABORT_ERROR` constant: error name for aborted fetch requests. -/
def ABORT_ERROR : String := "AbortError"

/-- `TIMEOUT_ERROR` constant: error name for timed out fetch requests. -/
def TIMEOUT_ERROR : String := "TimeoutError"

/-- A JavaScript `Error` object as the engine observes it: its `name`, its
`message`, and — when and only when the object is an instance of the
library's `FetchError` class — the HTTP `status` field.  `fetchStatus` is
`some s` exactly for `FetchError` instances (`error instanceof FetchError`). -/
structure JSError where
  name : String
  message : String
  fetchStatus : Option Rat := none
  deriving DecidableEq

/-- `new FetchError(message, status)`: `name` is always `'FetchError'`,
`message` is the status text and `status` the HTTP status code. -/
def mkFetchError (message : String) (status : Rat) : JSError :=
  { name := "FetchError", message := message, fetchStatus := some status }

/-- `error instanceof FetchError`. -/
def isFetchError (e : JSError) : Bool := e.fetchStatus.isSome

/-- A JavaScript value as it can be thrown by user code or used as an
abort reason: an `Error` instance, a string, or a number. -/
inductive JSVal where
  | error (e : JSError)
  | str (s : String)
  | num (q : Rat)
  deriving DecidableEq

/-- `String(reason)` for the values `wrapAbortReason` can receive. -/
def jsValString : JSVal → String
  | .error e => e.message
  | .str s => s
  | .num _ => "number"

/-- `wrapAbortReason(reason)`: wraps a non-Error abort reason into an `Error`
with name `ABORT_ERROR` (the `cause` field is not observed by the engine). -/
def wrapAbortReason (reason : JSVal) : JSError :=
  { name := ABORT_ERROR, message := jsValString reason, fetchStatus := none }

/-! ## Dynamic configuration values (the raw `FetchInit` fields) -/

/-- A dynamic JavaScript value in a configuration slot.  `obj` carries the
four fields of a structured retry policy object (`retries`, `delay`, `when`,
`onRetry`), the only object shape the validator ever destructures. -/
inductive JV where
  | undef
  | null
  | num (q : Rat)
  | str (s : String)
  | bool (b : Bool)
  | func
  | arr (xs : List JV)
  | obj (retriesF delayF whenF onRetryF : JV)

/-- JavaScript `v != null` is false exactly on `undefined` and `null`. -/
def JV.isNullish : JV → Bool
  | .undef => true
  | .null => true
  | _ => false

/-- `typeof v === 'function'`. -/
def JV.isFunc : JV → Bool
  | .func => true
  | _ => false

/-- `typeof v === 'number'`. -/
def JV.isNum : JV → Bool
  | .num _ => true
  | _ => false

/-- `Array.isArray(v)`. -/
def JV.isArr : JV → Bool
  | .arr _ => true
  | _ => false

/-- Nullish coalescing `v ?? fb`. -/
def JV.coalesce (v fb : JV) : JV :=
  match v with
  | .undef => fb
  | .null => fb
  | _ => v

/-- `Number.isInteger(v)` (on our `Rat` model of JS numbers). -/
def JV.isInteger : JV → Bool
  | .num q => q.den == 1
  | _ => false

/-! ## Response model (the transport's view of a `Response`) -/

/-- A settled transport response: status line, whether `response.body` is
non-null, the parsed `content-length` header if present, the body's chunk
byte lengths as the notification stream yields them, the decoded body
content, and whether the body parses as JSON. -/
structure Resp where
  status : Rat
  statusText : String
  hasBody : Bool
  contentLength : Option Nat
  chunks : List Nat
  data : String
  jsonValid : Bool

/-- `response.ok`: status in the 2xx range. -/
def respOk (r : Resp) : Bool := 200 ≤ r.status && r.status < 300

/-- Outcome of one call to the transport primitive `fetch(parsedUrl, rest)`:
it either resolves with a response or rejects with a thrown value (network
failure, or the composed abort signal firing with its reason). -/
inductive TransportOutcome where
  | response (resp : Resp)
  | thrown (v : JSVal)

/-! ## Signal composition (`configureSignal`) -/

/-- The identity of a constituent abort signal.  `AbortSignal.timeout` creates
a fresh signal object on every evaluation; allocation is modelled by indexing
the created signal with the attempt on which `configureSignal` ran. -/
inductive SignalSrc where
  | user
  | controller
  | timeoutSig (attempt : Nat)
  deriving DecidableEq

/-- `configureSignal`: collects the user's external signal, the master
controller's signal (present iff the call is abortable), and — when a timeout
is configured — a freshly created per-attempt timeout signal. -/
def configureSignal (hasUserSignal abortable : Bool) (timeout : Option Rat)
    (attempt : Nat) : List SignalSrc :=
  (if hasUserSignal then [SignalSrc.user] else []) ++
  (if abortable then [SignalSrc.controller] else []) ++
  (match timeout with
   | some _ => [SignalSrc.timeoutSig attempt]
   | none => [])

/-! ## Response data and decoding (`processResponse`) -/

/-- The requested response representation (validated `responseType`). -/
inductive RespType where
  | text
  | arraybuffer
  | blob
  | json
  | bytes
  | stream
  deriving DecidableEq

/-- The decoded value a successful call settles with (`FetchResponseData`). -/
inductive FetchResponseData where
  | raw (status : Rat) (statusText : String) (data : String)
  | text (s : String)
  | jsonVal (s : String)
  | jsonNull
  | bytes (s : String)
  | arraybuffer (s : String)
  | blob (s : String)
  | stream (body : Option String)
  deriving DecidableEq

/-- The two-variant Result container (`happy-rusty`'s `Result`). -/
inductive FResult where
  | ok (v : FetchResponseData)
  | err (e : JSError)
  deriving DecidableEq

/-- The body-decoding switch of `processResponse`.  For `bytes` both the
native-`bytes()` branch and the `arrayBuffer` fallback yield the same byte
array.  For `json`, a missing body yields `Ok(null)`; an unparsable body
yields the dedicated invalid-json error. -/
def decodeBody (responseType : Option RespType) (resp : Resp) : FResult :=
  match responseType with
  | some .json =>
      if !resp.hasBody then .ok .jsonNull
      else if resp.jsonValid then .ok (.jsonVal resp.data)
      else .err { name := "Error",
                  message := "Response is invalid json while responseType is json" }
  | some .text => .ok (.text resp.data)
  | some .bytes => .ok (.bytes resp.data)
  | some .arraybuffer => .ok (.arraybuffer resp.data)
  | some .blob => .ok (.blob resp.data)
  | some .stream => .ok (.stream (if resp.hasBody then some resp.data else none))
  | none => .ok (.raw resp.status resp.statusText resp.data)

/-! ## Progress / chunk notification (`setupProgressCallbacks`) -/

/-- One observable invocation of a user notification callback. -/
inductive ProgressEv where
  | chunkCb (bytes : Nat)
  | progressOk (total completed : Nat)
  | progressErr
  deriving DecidableEq

/-- A guarded user-callback invocation: `try { cb(...) } catch { /* ignore */ }`.
The behaviour oracle says whether this invocation throws; either way the
site swallows the outcome. -/
def tryDiscard (behavior : Option JSVal) : Unit :=
  match behavior with
  | some _ => ()
  | none => ()

/-- The `for await (const chunk of body)` notification loop: per chunk, the
chunk callback (if present) fires first, then — when the progress callback is
present and the total length is known — the cumulative progress callback.
`k` indexes invocations for the throw oracles; `completed` is the running
`completedByteLength`. -/
def notifyChunks (hasOnProgress hasOnChunk : Bool)
    (onProgressThrow onChunkThrow : Nat → Option JSVal)
    (total : Option Nat) : Nat → Nat → List Nat → List ProgressEv
  | _, _, [] => []
  | k, completed, c :: rest =>
      (if hasOnChunk then
        let _ := tryDiscard (onChunkThrow k)
        [ProgressEv.chunkCb c]
      else []) ++
      (match total with
       | some l =>
          if hasOnProgress then
            let _ := tryDiscard (onProgressThrow k)
            [ProgressEv.progressOk l (completed + c)]
          else []
       | none => []) ++
      notifyChunks hasOnProgress hasOnChunk onProgressThrow onChunkThrow total
        (k + 1) (completed + (if hasOnProgress && total.isSome then c else 0)) rest

/-- `setupProgressCallbacks(response)`: when a progress callback is present
but the response advertises no `content-length`, it is invoked exactly once
with a failure value and `totalByteLength` stays unset, suppressing all
byte-count notifications; otherwise every chunk of the cloned body stream is
notified in order. -/
def setupProgressCallbacks (hasOnProgress hasOnChunk : Bool)
    (onProgressThrow onChunkThrow : Nat → Option JSVal)
    (contentLength : Option Nat) (chunks : List Nat) : List ProgressEv :=
  let headerEvts : List ProgressEv :=
    if hasOnProgress && contentLength.isNone then
      let _ := tryDiscard (onProgressThrow 0)
      [ProgressEv.progressErr]
    else []
  let total : Option Nat := if hasOnProgress then contentLength else none
  headerEvts ++
    notifyChunks hasOnProgress hasOnChunk onProgressThrow onChunkThrow total 0 0 chunks

/-! ## Option validation (`validateOptions`) -/

/-- The `validTypes` list of `validateOptions`. -/
def validTypes : List String :=
  ["text", "arraybuffer", "blob", "json", "bytes", "stream"]

/-- A synchronous throw of the validator: `TypeError` or plain `Error`. -/
inductive ValErr where
  | typeError (msg : String)
  | error (msg : String)
  deriving DecidableEq

/-- Canonical retry delay after parsing: a validated static number, or the
caller's delay function. -/
inductive PDelay where
  | num (q : Rat)
  | func

/-- Canonical retry eligibility test after parsing: a status-code array
(elements kept as dynamic values, as the validator does not inspect them),
or the caller's predicate function. -/
inductive PWhen where
  | arr (xs : List JV)
  | func

/-- The canonical retry policy record `validateOptions` returns:
`{ retries, delay, when, onRetry }`. -/
structure ParsedRetryOptions where
  retries : Rat
  delay : PDelay
  whenOpt : Option PWhen
  onRetry : Bool

/-- The retry-field extraction of `validateOptions`: a number is a bare retry
count; a truthy object (arrays included, as `typeof [] === 'object'`) is
destructured with nullish-coalesced defaults; everything else (including
`null` and `undefined`, via the destructuring default `retry = 0`) leaves the
defaults `retries = 0`, `delay = 0`, `when`/`onRetry` undefined. -/
def parseRetryFields : JV → JV × JV × JV × JV
  | .num q => (.num q, .num 0, .undef, .undef)
  | .obj r d w o => (r.coalesce (.num 0), d.coalesce (.num 0), w, o)
  | .arr _ => (.num 0, .num 0, .undef, .undef)
  | _ => (.num 0, .num 0, .undef, .undef)

/-- The raw caller-supplied configuration slots the validator inspects.
`abortable` and the presence of an external signal are booleans the engine
branches on directly and the validator never checks. -/
structure RawInit where
  responseType : JV := .undef
  timeout : JV := .undef
  retry : JV := .undef
  onProgress : JV := .undef
  onChunk : JV := .undef
  abortable : Bool := false
  hasUserSignal : Bool := false

/-- `validTypes.includes(responseType)`: only a string among the valid
response types passes. -/
def jvValidResponseType : JV → Bool
  | .str s => validTypes.contains s
  | _ => false

/-- `typeof v === 'number' && v <= 0` (the rejected timeout values among
numbers). -/
def JV.isNonPosNum : JV → Bool
  | .num q => decide (q ≤ 0)
  | _ => false

/-- `typeof v === 'number' && v < 0`. -/
def JV.isNegNum : JV → Bool
  | .num q => decide (q < 0)
  | _ => false

/-- `validateOptions(init)`: validates, synchronously and in source order,
the response type, timeout, progress/chunk callbacks, and the retry
specification, throwing a `TypeError` or `Error`; on success returns the
canonical retry policy record. -/
def validateOptions (init : RawInit) : Except ValErr ParsedRetryOptions :=
  if !init.responseType.isNullish && !jvValidResponseType init.responseType then
    .error (.typeError "responseType must be one of text, arraybuffer, blob, json, bytes, stream")
  else if !init.timeout.isNullish && !init.timeout.isNum then
    .error (.typeError "timeout must be a number")
  else if !init.timeout.isNullish && init.timeout.isNonPosNum then
    .error (.error "timeout must be a number greater than 0")
  else if !init.onProgress.isNullish && !init.onProgress.isFunc then
    .error (.typeError "onProgress callback must be a function")
  else if !init.onChunk.isNullish && !init.onChunk.isFunc then
    .error (.typeError "onChunk callback must be a function")
  else
    match parseRetryFields init.retry with
    | (retriesJ, delayJ, whenJ, onRetryJ) =>
      if !retriesJ.isInteger then
        .error (.typeError "Retry count must be an integer")
      else if retriesJ.isNegNum then
        .error (.error "Retry count must be non-negative")
      else if delayJ.isNegNum then
        .error (.error "Retry delay must be a non-negative number")
      else if !delayJ.isNum && !delayJ.isFunc then
        .error (.typeError "Retry delay must be a number or a function")
      else if !whenJ.isNullish && !whenJ.isArr && !whenJ.isFunc then
        .error (.typeError "Retry when condition must be an array of status codes or a function")
      else if !onRetryJ.isNullish && !onRetryJ.isFunc then
        .error (.typeError "Retry onRetry callback must be a function")
      else
        .ok { retries := (match retriesJ with | .num q => q | _ => 0)
              delay := (match delayJ with | .num q => PDelay.num q | _ => PDelay.func)
              whenOpt := (match whenJ with
                          | .arr xs => some (PWhen.arr xs)
                          | .func => some PWhen.func
                          | _ => none)
              onRetry := onRetryJ.isFunc }

/-! ## The per-call environment and the retry loop (`fetchWithRetry`) -/

/-- Retry eligibility configuration as the loop consumes it: absent, a
status-code array, or a caller predicate.  The predicate is unguarded user
code, so it may throw. -/
inductive RetryWhen where
  | statusList (codes : List JV)
  | pred (f : JSError → Nat → Except JSVal Bool)

/-- Retry delay configuration as the loop consumes it.  The delay function is
unguarded user code, so it may throw. -/
inductive RetryDelay where
  | fixed (ms : Rat)
  | func (f : Nat → Except JSVal Rat)

/-- Everything one logical call closes over: the validated configuration,
the transport oracle (attempt index ↦ outcome of that `fetch` call), the
throw-behaviour oracles of the guarded user callbacks, and the master
controller's observable abort state at each cooperative checkpoint.
`abortedPreDelay i` / `abortedPostDelay i` are `userController.signal.aborted`
as read at iteration `i`'s checkpoint before / after the inter-retry delay. -/
structure FetchEnv where
  retries : Nat
  retryWhen : Option RetryWhen
  retryDelay : RetryDelay
  hasOnRetry : Bool
  onRetryThrow : Nat → Option JSVal
  hasOnProgress : Bool
  hasOnChunk : Bool
  onProgressThrow : Nat → Option JSVal
  onChunkThrow : Nat → Option JSVal
  responseType : Option RespType
  timeout : Option Rat
  hasUserSignal : Bool
  abortable : Bool
  transport : Nat → TransportOutcome
  abortedPreDelay : Nat → Bool
  abortedPostDelay : Nat → Bool
  abortReason : JSError

/-- `Array.prototype.includes(error.status)` on the `when` array: SameValueZero
comparison of the array's elements against the numeric status. -/
def statusIncluded (codes : List JV) (status : Rat) : Bool :=
  codes.any fun v =>
    match v with
    | .num q => q == status
    | _ => false

/-- `shouldRetry(error, attempt)`: never retry a user abort; with no `when`,
retry exactly on non-`FetchError` failures; with a status array, retry exactly
on `FetchError`s whose status is in the array; with a predicate, defer to it
(unguarded — a throw propagates). -/
def shouldRetry (retryWhen : Option RetryWhen) (error : JSError) (attempt : Nat) :
    Except JSVal Bool :=
  if error.name == ABORT_ERROR then
    .ok false
  else
    match retryWhen with
    | none => .ok (!isFetchError error)
    | some (.statusList codes) =>
        .ok (isFetchError error &&
          (match error.fetchStatus with
           | some s => statusIncluded codes s
           | none => false))
    | some (.pred f) => f error attempt

/-- `getRetryDelay(attempt)`: a static delay is used as-is; a delay function
is invoked unguarded (a throw propagates). -/
def getRetryDelay (retryDelay : RetryDelay) (attempt : Nat) : Except JSVal Rat :=
  match retryDelay with
  | .fixed ms => .ok ms
  | .func f => f attempt

/-- `processResponse(response)`: spawns the (un-awaited) notification loop on
the cloned body when a body and at least one notification callback are
present, and decodes the body per `responseType`.  Returns the decode result
together with the notification events the spawned loop delivers. -/
def processResponse (env : FetchEnv) (resp : Resp) : FResult × List ProgressEv :=
  (decodeBody env.responseType resp,
   if resp.hasBody && (env.hasOnProgress || env.hasOnChunk) then
     setupProgressCallbacks env.hasOnProgress env.hasOnChunk
       env.onProgressThrow env.onChunkThrow resp.contentLength resp.chunks
   else [])

/-- What one `doFetch()` call produces: its `Result`, whether it cancelled the
response body (the non-2xx drain), the abort signals it composed for the
transport, and the notification events of its spawned progress loop. -/
structure AttemptOut where
  result : FResult
  bodyCancelled : Bool
  signals : List SignalSrc
  progressEvs : List ProgressEv

/-- `doFetch()`: composes a fresh signal set via `configureSignal`, invokes
the transport, classifies a non-2xx response as a `FetchError` (cancelling
the body), hands a 2xx response to `processResponse`, and wraps a thrown
non-`Error` value as an abort-named error. -/
def doFetch (env : FetchEnv) (attempt : Nat) : AttemptOut :=
  let signals := configureSignal env.hasUserSignal env.abortable env.timeout attempt
  match env.transport attempt with
  | .response resp =>
      if !respOk resp then
        { result := .err (mkFetchError resp.statusText resp.status)
          bodyCancelled := resp.hasBody
          signals := signals
          progressEvs := [] }
      else
        let pr := processResponse env resp
        { result := pr.1, bodyCancelled := false, signals := signals,
          progressEvs := pr.2 }
  | .thrown v =>
      { result := .err (match v with
                        | .error e => e
                        | _ => wrapAbortReason v)
        bodyCancelled := false
        signals := signals
        progressEvs := [] }

/-- An observable event of the retry loop, in program order. -/
inductive Ev where
  | attemptStart (i : Nat)
  | attemptOk (i : Nat)
  | attemptFail (i : Nat) (e : JSError)
  | delayed (i : Nat) (ms : Rat)
  | onRetryCalled (i : Nat) (e : JSError)
  | abortObservedPre (i : Nat)
  | abortObservedPost (i : Nat)
  deriving DecidableEq

/-- A settled run of the retry loop: the final `Result`, the number of
transport attempts actually performed (ghost counter), and the event trace. -/
structure RunOut where
  result : FResult
  attempts : Nat
  trace : List Ev
  deriving DecidableEq

/-- Placeholder error for the impossible `lastError === undefined` read
(`onRetry` only runs with `attempt > 0`, after at least one failure). -/
def undefinedError : JSError := { name := "undefined", message := "undefined" }

/-- The section of a loop iteration that precedes `doFetch`: for retry
iterations (`attempt > 0`), the pre-delay abort checkpoint, the delay
computation and wait with its post-delay abort checkpoint, and the guarded
`onRetry` invocation.  Returns either a terminal `RunOut` (abort observed) or
the events to prepend to this iteration's trace; a throwing delay function
propagates. -/
def preRetryPhase (env : FetchEnv) (attempt : Nat) (lastError : Option JSError) :
    Except JSVal (RunOut ⊕ List Ev) :=
  if attempt == 0 then
    .ok (.inr [])
  else if env.abortable && env.abortedPreDelay attempt then
    .ok (.inl { result := .err env.abortReason, attempts := 0,
                trace := [.abortObservedPre attempt] })
  else
    match getRetryDelay env.retryDelay attempt with
    | .error v => .error v
    | .ok delayMs =>
      if 0 < delayMs then
        if env.abortable && env.abortedPostDelay attempt then
          .ok (.inl { result := .err env.abortReason, attempts := 0,
                      trace := [.delayed attempt delayMs, .abortObservedPost attempt] })
        else
          .ok (.inr ([Ev.delayed attempt delayMs] ++ onRetryEvents env attempt lastError))
      else
        .ok (.inr (onRetryEvents env attempt lastError))
where
  /-- The guarded `onRetry?.(lastError, attempt)` call site: the callback's
  outcome (including a throw) is discarded. -/
  onRetryEvents (env : FetchEnv) (attempt : Nat) (lastError : Option JSError) :
      List Ev :=
    if env.hasOnRetry then
      let _ := tryDiscard (env.onRetryThrow attempt)
      [Ev.onRetryCalled attempt (lastError.getD undefinedError)]
    else []

/-- The do/while body of `fetchWithRetry`, entered with the loop-carried
`attempt` counter and `lastError`.  Runs the pre-attempt section, performs
`doFetch`, returns on success, otherwise increments the counter and recurses
iff `attempt <= retries && shouldRetry(lastError, attempt)` (with JavaScript's
short-circuit `&&`: eligibility is only consulted while budget remains).
The settled value is the first success or the most recent failure.

The loop terminates because every iteration increments `attempt` and the
continuation guard requires `attempt + 1 ≤ retries`; the translation makes
that explicit with a structural `fuel` counter, initialised so that
`retries + 1 - attempt ≤ fuel` — under this invariant the `fuel = 0` branch
is unreachable (see `retryLoopGo_fuel_irrel`). -/
def retryLoopGo (env : FetchEnv) :
    Nat → Nat → Option JSError → Except JSVal RunOut
  | 0, _, _ =>
      .ok { result := .err undefinedError, attempts := 0, trace := [] }
  | fuel + 1, attempt, lastError =>
    match preRetryPhase env attempt lastError with
    | .error v => .error v
    | .ok (.inl out) => .ok out
    | .ok (.inr preEvs) =>
      let a := doFetch env attempt
      match a.result with
      | .ok v =>
          .ok { result := .ok v, attempts := 1,
                trace := preEvs ++ [.attemptStart attempt, .attemptOk attempt] }
      | .err e =>
        let evs := preEvs ++ [Ev.attemptStart attempt, Ev.attemptFail attempt e]
        if attempt + 1 ≤ env.retries then
          match shouldRetry env.retryWhen e (attempt + 1) with
          | .error v => .error v
          | .ok true =>
            match retryLoopGo env fuel (attempt + 1) (some e) with
            | .error v => .error v
            | .ok rest =>
                .ok { result := rest.result, attempts := 1 + rest.attempts,
                      trace := evs ++ rest.trace }
          | .ok false => .ok { result := .err e, attempts := 1, trace := evs }
        else
          .ok { result := .err e, attempts := 1, trace := evs }

/-- The retry loop entered at a given `attempt` value, with adequate fuel. -/
def retryLoopIter (env : FetchEnv) (attempt : Nat) (lastError : Option JSError) :
    Except JSVal RunOut :=
  retryLoopGo env (env.retries + 1 - attempt) attempt lastError

/-- `fetchWithRetry()` as invoked by the entry point: the loop starts at
attempt 0 with no recorded failure. -/
def fetchWithRetry (env : FetchEnv) : Except JSVal RunOut :=
  retryLoopIter env 0 none

/-! ## The entry point (`fetchT`) -/

/-- The runtime collaborators of one call that are not configuration data:
the semantics of the caller's `when` predicate and `delay` function, the
throw behaviour of the guarded callbacks, the transport, and the master
controller's abort state.  These are opaque to the validator. -/
structure DynOracles where
  whenPred : JSError → Nat → Except JSVal Bool
  delayFunc : Nat → Except JSVal Rat
  onRetryThrow : Nat → Option JSVal
  onProgressThrow : Nat → Option JSVal
  onChunkThrow : Nat → Option JSVal
  transport : Nat → TransportOutcome
  abortedPreDelay : Nat → Bool
  abortedPostDelay : Nat → Bool
  abortReason : JSError

/-- `responseType` as the decode switch sees it after validation. -/
def respTypeOfJV : JV → Option RespType
  | .str "text" => some .text
  | .str "arraybuffer" => some .arraybuffer
  | .str "blob" => some .blob
  | .str "json" => some .json
  | .str "bytes" => some .bytes
  | .str "stream" => some .stream
  | _ => none

/-- The closure environment `fetchT` builds from the validated options and
the call's runtime collaborators. -/
def mkEnv (init : RawInit) (p : ParsedRetryOptions) (dyn : DynOracles) : FetchEnv :=
  { retries := p.retries.num.toNat
    retryWhen :=
      match p.whenOpt with
      | none => none
      | some (.arr xs) => some (.statusList xs)
      | some .func => some (.pred dyn.whenPred)
    retryDelay :=
      match p.delay with
      | .num q => .fixed q
      | .func => .func dyn.delayFunc
    hasOnRetry := p.onRetry
    onRetryThrow := dyn.onRetryThrow
    hasOnProgress := init.onProgress.isFunc
    hasOnChunk := init.onChunk.isFunc
    onProgressThrow := dyn.onProgressThrow
    onChunkThrow := dyn.onChunkThrow
    responseType := respTypeOfJV init.responseType
    timeout := (match init.timeout with | .num q => some q | _ => none)
    hasUserSignal := init.hasUserSignal
    abortable := init.abortable
    transport := dyn.transport
    abortedPreDelay := dyn.abortedPreDelay
    abortedPostDelay := dyn.abortedPostDelay
    abortReason := dyn.abortReason }

/-- The entry point `fetchT` (after URL validation): validates the options
synchronously — a validation failure is a synchronous throw, surfacing as
`Except.error` before any asynchronous work — and otherwise starts the
retry loop. -/
def fetchTModel (init : RawInit) (dyn : DynOracles) :
    Except ValErr (Except JSVal RunOut) :=
  match validateOptions init with
  | .error e => .error e
  | .ok p => .ok (fetchWithRetry (mkEnv init p dyn))

/-! ## Helper lemmas -/

/-- The guard at the head of `shouldRetry`: an error named `AbortError` is
never retry-eligible, before any configured test is consulted. -/
lemma shouldRetry_abortName (rw : Option RetryWhen) (e : JSError) (a : Nat)
    (h : e.name = ABORT_ERROR) : shouldRetry rw e a = .ok false := by
  simp [shouldRetry, h]

/-- The first loop iteration has no pre-attempt section. -/
lemma preRetryPhase_attempt_zero (env : FetchEnv) (le : Option JSError) :
    preRetryPhase env 0 le = .ok (.inr []) := rfl

/-- A terminal value out of the pre-attempt section is an abort observation:
it carries the master controller's reason, counts no attempt, and can only
occur on a retry iteration of an abortable call with the abort flag raised at
one of the two checkpoints. -/
lemma preRetryPhase_inl (env : FetchEnv) (a : Nat) (le : Option JSError)
    (o : RunOut) (h : preRetryPhase env a le = .ok (.inl o)) :
    0 < a ∧ o.result = .err env.abortReason ∧ o.attempts = 0 ∧
      env.abortable = true ∧
      (env.abortedPreDelay a = true ∨ env.abortedPostDelay a = true) := by
  unfold preRetryPhase at h
  by_cases ha : a = 0
  · simp [ha] at h
  · simp only [ha, beq_iff_eq, if_false] at h
    by_cases hab : env.abortable && env.abortedPreDelay a
    · simp only [hab, if_true] at h
      obtain ⟨h1, h2⟩ := Bool.and_eq_true_iff.mp hab
      cases h
      exact ⟨Nat.pos_of_ne_zero ha, rfl, rfl, h1, Or.inl h2⟩
    · simp only [hab, if_false] at h
      cases hgd : getRetryDelay env.retryDelay a with
      | error v => rw [hgd] at h; cases h
      | ok d =>
        rw [hgd] at h
        by_cases hd : 0 < d
        · simp only [hd, if_true] at h
          by_cases hab2 : env.abortable && env.abortedPostDelay a
          · simp only [hab2, if_true] at h
            obtain ⟨h1, h2⟩ := Bool.and_eq_true_iff.mp hab2
            cases h
            exact ⟨Nat.pos_of_ne_zero ha, rfl, rfl, h1, Or.inr h2⟩
          · simp only [hab2, if_false] at h
            cases h
        · simp only [hd, if_false] at h
          cases h

/-- When neither abort checkpoint fires and the delay computation returns,
the pre-attempt section hands the iteration its pre-attempt events. -/
lemma preRetryPhase_inr_of_clean (env : FetchEnv) (a : Nat) (le : Option JSError)
    (d : Rat)
    (hpre : (env.abortable && env.abortedPreDelay a) = false)
    (hpost : (env.abortable && env.abortedPostDelay a) = false)
    (hgd : getRetryDelay env.retryDelay a = .ok d) :
    ∃ evs, preRetryPhase env a le = .ok (.inr evs) := by
  unfold preRetryPhase
  by_cases ha : a = 0
  · exact ⟨[], by simp [ha]⟩
  · by_cases hd : 0 < d <;>
      simp [ha, hpre, hpost, hgd, hd]

/-- Structure of every settled run of the retry loop, relative to the entry
attempt index: the attempt count respects the budget; a run with no attempt
is an abort observation on a retry iteration; every attempt followed by
another one failed, had budget left, and passed the eligibility test; and the
final value is either the last attempt's result (with the loop's stop
condition if that was a failure) or the master controller's abort reason
observed at a checkpoint. -/
theorem loopStructure (env : FetchEnv) (fuel : Nat) :
    ∀ (attempt : Nat) (le : Option JSError) (out : RunOut),
      attempt ≤ env.retries →
      fuel = env.retries + 1 - attempt →
      retryLoopGo env fuel attempt le = .ok out →
      (attempt + out.attempts ≤ env.retries + 1) ∧
      (out.attempts = 0 →
        0 < attempt ∧ out.result = .err env.abortReason ∧ env.abortable = true ∧
        (env.abortedPreDelay attempt = true ∨ env.abortedPostDelay attempt = true)) ∧
      (∀ j, j + 1 < out.attempts →
        ∃ e, (doFetch env (attempt + j)).result = .err e ∧
          attempt + j + 1 ≤ env.retries ∧
          shouldRetry env.retryWhen e (attempt + j + 1) = .ok true) ∧
      (0 < out.attempts →
        (out.result = (doFetch env (attempt + out.attempts - 1)).result ∧
          (∀ e, (doFetch env (attempt + out.attempts - 1)).result = .err e →
            attempt + out.attempts = env.retries + 1 ∨
            shouldRetry env.retryWhen e (attempt + out.attempts) = .ok false)) ∨
        (out.result = .err env.abortReason ∧ env.abortable = true ∧
          (env.abortedPreDelay (attempt + out.attempts) = true ∨
           env.abortedPostDelay (attempt + out.attempts) = true))) := by
  induction fuel with
  | zero =>
    intro attempt le out hat hfuel hrun
    omega
  | succ n ih =>
    intro attempt le out hat hfuel hrun
    cases hpre : preRetryPhase env attempt le with
    | error v =>
      simp only [retryLoopGo, hpre] at hrun
      simp at hrun
    | ok s =>
      cases s with
      | inl o =>
        simp only [retryLoopGo, hpre] at hrun
        obtain ⟨hpos, hres, hatt, hab, hflag⟩ := preRetryPhase_inl env attempt le o hpre
        obtain rfl : o = out := by simpa using hrun
        refine ⟨by omega, fun _ => ⟨hpos, hres, hab, hflag⟩, ?_, ?_⟩
        · intro j hj
          rw [hatt] at hj
          omega
        · intro hposa
          rw [hatt] at hposa
          omega
      | inr preEvs =>
        cases hdo : (doFetch env attempt).result with
        | ok v =>
          simp only [retryLoopGo, hpre, hdo] at hrun
          have hout := hrun.symm
          rw [Except.ok.injEq] at hout
          subst hout
          refine ⟨by show attempt + 1 ≤ env.retries + 1; omega, by simp, ?_, ?_⟩
          · intro j hj
            simp at hj
          · intro _
            left
            constructor
            · show FResult.ok v = (doFetch env (attempt + 1 - 1)).result
              simp [hdo]
            · intro e he
              show attempt + 1 = env.retries + 1 ∨ _
              simp [hdo] at he
        | err e =>
          by_cases hb : attempt + 1 ≤ env.retries
          · cases hsr : shouldRetry env.retryWhen e (attempt + 1) with
            | error v =>
              simp only [retryLoopGo, hpre, hdo, if_pos hb, hsr] at hrun
              simp at hrun
            | ok b =>
              cases b with
              | false =>
                simp only [retryLoopGo, hpre, hdo, if_pos hb, hsr] at hrun
                have hout := hrun.symm
                rw [Except.ok.injEq] at hout
                subst hout
                refine ⟨by show attempt + 1 ≤ env.retries + 1; omega, by simp, ?_, ?_⟩
                · intro j hj
                  simp at hj
                · intro _
                  left
                  constructor
                  · show FResult.err e = (doFetch env (attempt + 1 - 1)).result
                    simp [hdo]
                  · intro e' he'
                    show attempt + 1 = env.retries + 1 ∨
                      shouldRetry env.retryWhen e' (attempt + 1) = .ok false
                    simp [hdo] at he'
                    subst he'
                    right
                    exact hsr
              | true =>
                cases hrec : retryLoopGo env n (attempt + 1) (some e) with
                | error v =>
                  simp only [retryLoopGo, hpre, hdo, if_pos hb, hsr, hrec] at hrun
                  simp at hrun
                | ok rest =>
                  simp only [retryLoopGo, hpre, hdo, if_pos hb, hsr, hrec] at hrun
                  have hout := hrun.symm
                  rw [Except.ok.injEq] at hout
                  subst hout
                  obtain ⟨ihb, ihz, ihc, ihr⟩ :=
                    ih (attempt + 1) (some e) rest hb (by omega) hrec
                  refine ⟨by show attempt + (1 + rest.attempts) ≤ env.retries + 1; omega,
                    by show 1 + rest.attempts = 0 → _; omega, ?_, ?_⟩
                  · intro j hj
                    replace hj : j + 1 < 1 + rest.attempts := hj
                    cases j with
                    | zero =>
                      exact ⟨e, by simpa using hdo, by omega, by simpa using hsr⟩
                    | succ j =>
                      obtain ⟨e', hde', hb', hsr'⟩ := ihc j (by omega)
                      refine ⟨e', ?_, by omega, ?_⟩
                      · rw [show attempt + (j + 1) = attempt + 1 + j from by omega]
                        exact hde'
                      · rw [show attempt + (j + 1) + 1 = attempt + 1 + j + 1 from by omega]
                        exact hsr'
                  · intro _
                    show (rest.result = (doFetch env (attempt + (1 + rest.attempts) - 1)).result ∧
                        (∀ e', (doFetch env (attempt + (1 + rest.attempts) - 1)).result =
                            .err e' →
                          attempt + (1 + rest.attempts) = env.retries + 1 ∨
                          shouldRetry env.retryWhen e' (attempt + (1 + rest.attempts)) =
                            .ok false)) ∨
                      (rest.result = .err env.abortReason ∧ env.abortable = true ∧
                        (env.abortedPreDelay (attempt + (1 + rest.attempts)) = true ∨
                         env.abortedPostDelay (attempt + (1 + rest.attempts)) = true))
                    by_cases hrz : rest.attempts = 0
                    · obtain ⟨_, hrr, hab, hflag⟩ := ihz hrz
                      right
                      refine ⟨hrr, hab, ?_⟩
                      rw [show attempt + (1 + rest.attempts) = attempt + 1 from by
                        omega]
                      exact hflag
                    · rcases ihr (by omega) with ⟨hres, hstop⟩ | ⟨hrr, hab, hflag⟩
                      · left
                        constructor
                        · rw [show attempt + (1 + rest.attempts) - 1 =
                              attempt + 1 + rest.attempts - 1 from by omega]
                          exact hres
                        · intro e' he'
                          rw [show attempt + (1 + rest.attempts) - 1 =
                              attempt + 1 + rest.attempts - 1 from by omega] at he'
                          rcases hstop e' he' with h | h
                          · left
                            omega
                          · right
                            rw [show attempt + (1 + rest.attempts) =
                                attempt + 1 + rest.attempts from by omega]
                            exact h
                      · right
                        refine ⟨hrr, hab, ?_⟩
                        rw [show attempt + (1 + rest.attempts) =
                            attempt + 1 + rest.attempts from by omega]
                        exact hflag
          · simp only [retryLoopGo, hpre, hdo, if_neg hb] at hrun
            have hout := hrun.symm
            rw [Except.ok.injEq] at hout
            subst hout
            refine ⟨by show attempt + 1 ≤ env.retries + 1; omega, by simp, ?_, ?_⟩
            · intro j hj
              simp at hj
            · intro _
              left
              constructor
              · show FResult.err e = (doFetch env (attempt + 1 - 1)).result
                simp [hdo]
              · intro e' he'
                show attempt + 1 = env.retries + 1 ∨ _
                left
                omega

/-- When the `when` predicate and the `delay` function always return (the
only unguarded user code in the loop), every run settles to a `Result`. -/
theorem loopTotal (env : FetchEnv)
    (hw : ∀ e a, ∃ b, shouldRetry env.retryWhen e a = .ok b)
    (hd : ∀ a, ∃ d, getRetryDelay env.retryDelay a = .ok d) :
    ∀ (fuel attempt : Nat) (le : Option JSError),
      ∃ out, retryLoopGo env fuel attempt le = .ok out := by
  intro fuel
  induction fuel with
  | zero => exact fun attempt le => ⟨_, rfl⟩
  | succ n ih =>
    intro attempt le
    have hpre : ∃ s, preRetryPhase env attempt le = .ok s := by
      unfold preRetryPhase
      by_cases ha : attempt = 0
      · exact ⟨.inr [], by simp [ha]⟩
      · by_cases hab : env.abortable && env.abortedPreDelay attempt
        · exact ⟨.inl { result := .err env.abortReason, attempts := 0,
                        trace := [.abortObservedPre attempt] }, by simp [ha, hab]⟩
        · obtain ⟨d, hgd⟩ := hd attempt
          by_cases hdp : 0 < d
          · by_cases hab2 : env.abortable && env.abortedPostDelay attempt
            · exact ⟨.inl { result := .err env.abortReason, attempts := 0,
                            trace := [.delayed attempt d, .abortObservedPost attempt] },
                by simp [ha, hab, hgd, hdp, hab2]⟩
            · exact ⟨.inr (Ev.delayed attempt d ::
                preRetryPhase.onRetryEvents env attempt le),
                by simp [ha, hab, hgd, hdp, hab2]⟩
          · exact ⟨.inr (preRetryPhase.onRetryEvents env attempt le),
              by simp [ha, hab, hgd, hdp]⟩
    obtain ⟨s, hpre⟩ := hpre
    cases s with
    | inl o => exact ⟨o, by simp only [retryLoopGo, hpre]⟩
    | inr preEvs =>
      cases hdo : (doFetch env attempt).result with
      | ok v =>
        exact ⟨{ result := .ok v, attempts := 1,
                 trace := preEvs ++ [.attemptStart attempt, .attemptOk attempt] },
          by simp only [retryLoopGo, hpre, hdo]⟩
      | err e =>
        by_cases hb : attempt + 1 ≤ env.retries
        · obtain ⟨b, hsr⟩ := hw e (attempt + 1)
          cases b with
          | false =>
            exact ⟨{ result := .err e, attempts := 1,
                     trace := preEvs ++ [.attemptStart attempt, .attemptFail attempt e] },
              by simp only [retryLoopGo, hpre, hdo, if_pos hb, hsr]⟩
          | true =>
            obtain ⟨rest, hrec⟩ := ih (attempt + 1) (some e)
            exact ⟨{ result := rest.result, attempts := 1 + rest.attempts,
                     trace := preEvs ++ Ev.attemptStart attempt ::
                       Ev.attemptFail attempt e :: rest.trace },
              by simp [retryLoopGo, hpre, hdo, if_pos hb, hsr, hrec]⟩
        · exact ⟨{ result := .err e, attempts := 1,
                   trace := preEvs ++ [.attemptStart attempt, .attemptFail attempt e] },
            by simp only [retryLoopGo, hpre, hdo, if_neg hb]⟩

/-! ## Claim theorems -/

/-- An inert environment used to instantiate witnesses: no retries, nothing
configured, a transport that fails with a plain network error. -/
def inertEnv : FetchEnv :=
  { retries := 0
    retryWhen := none
    retryDelay := .fixed 0
    hasOnRetry := false
    onRetryThrow := fun _ => none
    hasOnProgress := false
    hasOnChunk := false
    onProgressThrow := fun _ => none
    onChunkThrow := fun _ => none
    responseType := none
    timeout := none
    hasUserSignal := false
    abortable := false
    transport := fun _ => .thrown (.error { name := "TypeError", message := "network down" })
    abortedPreDelay := fun _ => false
    abortedPostDelay := fun _ => false
    abortReason := { name := "AbortError", message := "user cancelled" } }

/-- A 500 response with a body. -/
def resp500 : Resp :=
  { status := 500, statusText := "Internal Server Error", hasBody := true,
    contentLength := none, chunks := [], data := "", jsonValid := false }

/-- A 200 response carrying the text body `"hello"`. -/
def resp200 : Resp :=
  { status := 200, statusText := "OK", hasBody := true,
    contentLength := some 7, chunks := [3, 4], data := "hello", jsonValid := true }

/-- C6: on an attempt whose transport call succeeds with a status outside the
2xx range, the engine cancels the response body (exactly when one is present)
and the attempt's outcome is a `FetchError` carrying the numeric status code
and the status text as its message — a failure kind distinguishable (by
`instanceof FetchError` and by name) from cancellation, timeout, and generic
failures. -/
theorem fetchT_C6 (env : FetchEnv) (i : Nat) (resp : Resp)
    (ht : env.transport i = .response resp)
    (hok : respOk resp = false) :
    (doFetch env i).result = .err (mkFetchError resp.statusText resp.status) ∧
    (doFetch env i).bodyCancelled = resp.hasBody ∧
    isFetchError (mkFetchError resp.statusText resp.status) = true ∧
    (mkFetchError resp.statusText resp.status).fetchStatus = some resp.status ∧
    (mkFetchError resp.statusText resp.status).message = resp.statusText ∧
    (mkFetchError resp.statusText resp.status).name ≠ ABORT_ERROR ∧
    (mkFetchError resp.statusText resp.status).name ≠ TIMEOUT_ERROR := by
  refine ⟨?_, ?_, rfl, rfl, rfl, ?_, ?_⟩
  · simp [doFetch, ht, hok]
  · simp [doFetch, ht, hok]
  · simp [mkFetchError, ABORT_ERROR]
  · simp [mkFetchError, TIMEOUT_ERROR]

/-- C6 witness: the inert environment pointed at a 500 response. -/
theorem fetchT_C6_witness :
    ((doFetch { inertEnv with transport := fun _ => .response resp500 } 0).result =
        .err (mkFetchError resp500.statusText resp500.status) ∧
      (doFetch { inertEnv with transport := fun _ => .response resp500 } 0).bodyCancelled =
        resp500.hasBody ∧
      isFetchError (mkFetchError resp500.statusText resp500.status) = true ∧
      (mkFetchError resp500.statusText resp500.status).fetchStatus = some resp500.status ∧
      (mkFetchError resp500.statusText resp500.status).message = resp500.statusText ∧
      (mkFetchError resp500.statusText resp500.status).name ≠ ABORT_ERROR ∧
      (mkFetchError resp500.statusText resp500.status).name ≠ TIMEOUT_ERROR) :=
  fetchT_C6 { inertEnv with transport := fun _ => .response resp500 } 0 resp500
    rfl (by decide)

/-- A cancellation failure as the engine observes it after a user abort. -/
def cexAbortError : JSError := { name := "AbortError", message := "user cancelled" }

/-- A call with a bare retry budget of 5 whose first attempt fails with a
user cancellation. -/
def envAbortedCall : FetchEnv :=
  { inertEnv with
      retries := 5
      transport := fun _ => .thrown (.error cexAbortError) }

/-- C2 counterexample: the claim's "retry iff the failure is NOT an
HTTP-status failure" fails on a cancellation failure: an `AbortError`-named
failure is not a `FetchError`, yet with no `when` configured the engine does
not retry it — and a call with a bare retry budget of 5 whose first attempt
fails with such a cancellation performs exactly 1 attempt. -/
theorem fetchT_C2_counterexample :
    isFetchError cexAbortError = false ∧
    shouldRetry none cexAbortError 1 = .ok false ∧
    fetchWithRetry envAbortedCall =
      .ok { result := .err cexAbortError, attempts := 1,
            trace := [.attemptStart 0, .attemptFail 0 cexAbortError] } :=
  ⟨rfl, rfl, rfl⟩

/-- C2 (amended): for a failed attempt of a call configured without an
explicit `when` test, the engine retries iff the failure is neither a
cancellation (`AbortError`-named) nor an HTTP-status failure (`FetchError`):
network and timeout failures are retried by default, HTTP error responses
never are — a bare retry count against a stub always returning HTTP 500
yields exactly one attempt. -/
theorem fetchT_C2_amended :
    (∀ (e : JSError) (a : Nat), e.name ≠ ABORT_ERROR →
        (shouldRetry none e a = .ok true ↔ isFetchError e = false)) ∧
    (∀ (env : FetchEnv) (resp : Resp),
        env.retryWhen = none →
        env.transport 0 = .response resp →
        respOk resp = false →
        fetchWithRetry env = .ok
          { result := .err (mkFetchError resp.statusText resp.status)
            attempts := 1
            trace := [.attemptStart 0,
                      .attemptFail 0 (mkFetchError resp.statusText resp.status)] }) := by
  constructor
  · intro e a hne
    simp [shouldRetry, hne]
  · intro env resp hw ht hok
    have hdo : (doFetch env 0).result = .err (mkFetchError resp.statusText resp.status) := by
      simp [doFetch, ht, hok]
    have hsr : shouldRetry env.retryWhen (mkFetchError resp.statusText resp.status) 1 =
        .ok false := by
      simp [shouldRetry, hw, ABORT_ERROR, mkFetchError, isFetchError]
    show retryLoopGo env (env.retries + 1 - 0) 0 none = _
    rw [Nat.sub_zero]
    simp only [retryLoopGo, preRetryPhase_attempt_zero]
    simp [hdo, hsr]

/-- A call with a bare retry count of 3 against a transport that always
answers 500. -/
def envBare500 : FetchEnv :=
  { inertEnv with
      retries := 3
      transport := fun _ => .response resp500 }

/-- C2 amended witness: a bare retry count of 3 against a transport that
always answers 500 settles after exactly one attempt with the
`FetchError`. -/
theorem fetchT_C2_amended_witness :
    ((mkFetchError "boom" 500).name ≠ ABORT_ERROR →
      (shouldRetry none (mkFetchError "boom" 500) 1 = .ok true ↔
        isFetchError (mkFetchError "boom" 500) = false)) ∧
    fetchWithRetry envBare500 =
      .ok { result := .err (mkFetchError resp500.statusText resp500.status)
            attempts := 1
            trace := [.attemptStart 0,
                      .attemptFail 0 (mkFetchError resp500.statusText resp500.status)] } :=
  ⟨fun h => fetchT_C2_amended.1 (mkFetchError "boom" 500) 1 h,
   fetchT_C2_amended.2 envBare500 resp500 rfl rfl (by decide)⟩

/-- C10: the retry `when` predicate and the `delay` function are invoked
without any guard: if the predicate throws while being consulted after a
failed first attempt (budget remaining, failure not a cancellation), or the
delay function throws while the next retry is being scheduled, the returned
response promise rejects with that thrown value instead of settling to a
failure `Result`. -/
theorem fetchT_C10 :
    (∀ (env : FetchEnv) (e : JSError) (v : JSVal)
        (f : JSError → Nat → Except JSVal Bool),
        env.retryWhen = some (.pred f) →
        1 ≤ env.retries →
        (doFetch env 0).result = .err e →
        e.name ≠ ABORT_ERROR →
        f e 1 = .error v →
        fetchWithRetry env = .error v) ∧
    (∀ (env : FetchEnv) (e : JSError) (v : JSVal) (g : Nat → Except JSVal Rat),
        env.retryDelay = .func g →
        1 ≤ env.retries →
        (doFetch env 0).result = .err e →
        shouldRetry env.retryWhen e 1 = .ok true →
        env.abortable = false →
        g 1 = .error v →
        fetchWithRetry env = .error v) := by
  constructor
  · intro env e v f hw hr hdo hne hf
    have hsr : shouldRetry env.retryWhen e 1 = .error v := by
      simp [shouldRetry, hw, hne, hf]
    show retryLoopGo env (env.retries + 1 - 0) 0 none = _
    rw [Nat.sub_zero]
    simp only [retryLoopGo, preRetryPhase_attempt_zero]
    simp [hdo, hsr, hr]
  · intro env e v g hg hr hdo hsr hab hgv
    obtain ⟨k, hk⟩ : ∃ k, env.retries = k + 1 :=
      ⟨env.retries - 1, by omega⟩
    have hpre : preRetryPhase env 1 (some e) = .error v := by
      unfold preRetryPhase
      simp [hab, getRetryDelay, hg, hgv]
    show retryLoopGo env (env.retries + 1 - 0) 0 none = _
    rw [Nat.sub_zero, hk]
    simp only [retryLoopGo, preRetryPhase_attempt_zero]
    simp [hdo, hsr, hpre, hk]

/-- A call whose `when` predicate always throws the string `"boom"`. -/
def envThrowingWhen : FetchEnv :=
  { inertEnv with
      retries := 2
      retryWhen := some (.pred fun _ _ => .error (.str "boom")) }

/-- A call whose `delay` function always throws the string `"late boom"`. -/
def envThrowingDelay : FetchEnv :=
  { inertEnv with
      retries := 2
      retryDelay := .func fun _ => .error (.str "late boom") }

/-- C10 witness: a concrete call whose `when` predicate throws the string
`"boom"` on first consultation rejects with exactly that value; a concrete
call whose `delay` function throws `"late boom"` likewise rejects. -/
theorem fetchT_C10_witness :
    fetchWithRetry envThrowingWhen = .error (.str "boom") ∧
    fetchWithRetry envThrowingDelay = .error (.str "late boom") :=
  ⟨fetchT_C10.1 envThrowingWhen
      { name := "TypeError", message := "network down" } (.str "boom") _
      rfl (by decide) rfl (by decide) rfl,
   fetchT_C10.2 envThrowingDelay
      { name := "TypeError", message := "network down" } (.str "late boom") _
      rfl (by decide) rfl rfl rfl rfl⟩

/-- C4: on every attempt of a call with a configured timeout, the signal
composer is re-invoked and contributes a fresh per-attempt timeout signal —
attempt `i`'s composition contains exactly the timeout signal created on
attempt `i` and no other attempt's — so a timeout that fired during attempt
`n` does not cancel attempt `n + 1`: with a stub that times out on attempt 1
and succeeds on attempt 2 under a policy of ≥ 1 retries whose eligibility
matches `Timeout`, exactly 2 attempts occur and the final `Result` is the
success. -/
theorem fetchT_C4 :
    (∀ (hu ab : Bool) (t : Rat) (i j : Nat),
        (SignalSrc.timeoutSig j ∈ configureSignal hu ab (some t) i) ↔ j = i) ∧
    (∀ (env : FetchEnv) (i : Nat),
        (doFetch env i).signals =
          configureSignal env.hasUserSignal env.abortable env.timeout i) ∧
    (∀ (env : FetchEnv) (te : JSError) (v : FetchResponseData) (d : Rat),
        1 ≤ env.retries →
        (doFetch env 0).result = .err te →
        te.name = TIMEOUT_ERROR →
        shouldRetry env.retryWhen te 1 = .ok true →
        getRetryDelay env.retryDelay 1 = .ok d →
        env.abortedPreDelay 1 = false →
        env.abortedPostDelay 1 = false →
        (doFetch env 1).result = .ok v →
        ∃ out, fetchWithRetry env = .ok out ∧
          out.attempts = 2 ∧ out.result = .ok v) := by
  refine ⟨?_, ?_, ?_⟩
  · intro hu ab t i j
    cases hu <;> cases ab <;> simp [configureSignal]
  · intro env i
    cases ht : env.transport i with
    | response resp => by_cases hok : respOk resp <;> simp [doFetch, ht, hok]
    | thrown v => simp [doFetch, ht]
  · intro env te v d hr hdo0 hname hsr hgd hpre1 hpost1 hdo1
    obtain ⟨k, hk⟩ : ∃ k, env.retries = k + 1 :=
      ⟨env.retries - 1, by omega⟩
    obtain ⟨preEvs, hpre⟩ :=
      preRetryPhase_inr_of_clean env 1 (some te) d
        (by simp [hpre1]) (by simp [hpost1]) hgd
    refine ⟨{ result := .ok v, attempts := 1 + 1,
              trace := [Ev.attemptStart 0, Ev.attemptFail 0 te] ++
                (preEvs ++ [Ev.attemptStart 1, Ev.attemptOk 1]) }, ?_, rfl, rfl⟩
    show retryLoopGo env (env.retries + 1 - 0) 0 none = _
    rw [Nat.sub_zero, hk]
    simp only [retryLoopGo, preRetryPhase_attempt_zero]
    simp [hdo0, hsr, hk, hpre, hdo1]

/-- A transport that throws a timeout on attempt 0 and answers 200 on every
later attempt, under one retry with a `when` predicate matching timeouts. -/
def envTimeoutRetry : FetchEnv :=
  { inertEnv with
      retries := 1
      retryWhen := some (.pred fun e _ => .ok (e.name == TIMEOUT_ERROR))
      timeout := some 50
      responseType := some .text
      transport := fun i =>
        if i == 0 then
          .thrown (.error { name := "TimeoutError", message := "signal timed out" })
        else .response resp200 }

/-- C4 witness: the timeout-then-success stub performs exactly 2 attempts and
settles with the 200 body. -/
theorem fetchT_C4_witness :
    (SignalSrc.timeoutSig 1 ∈ configureSignal false false (some 50) 1 ↔ (1 : Nat) = 1) ∧
    ∃ out, fetchWithRetry envTimeoutRetry = .ok out ∧
      out.attempts = 2 ∧ out.result = .ok (.text "hello") :=
  ⟨fetchT_C4.1 false false 50 1 1,
   fetchT_C4.2.2 envTimeoutRetry
      { name := "TimeoutError", message := "signal timed out" } (.text "hello") 0
      (by decide) rfl rfl rfl rfl rfl rfl rfl⟩

/-- C1: for a call whose configuration validates (and, the scope of the
termination clause: no cancellation is observed and the caller's `when` and
`delay` functions return normally), the retry loop runs the first attempt
unconditionally; after a failed attempt it increments the attempt counter
and performs another attempt iff the counter is ≤ the configured retry count
AND the eligibility test passes on the last error; the settled `Result` is
the first success encountered or the most recent failure; and at most
`retries + 1` attempts ever occur. -/
theorem fetchT_C1 (env : FetchEnv)
    (hnoabort : ∀ i, env.abortedPreDelay i = false ∧ env.abortedPostDelay i = false)
    (hw : ∀ e a, ∃ b, shouldRetry env.retryWhen e a = .ok b)
    (hd : ∀ a, ∃ d, getRetryDelay env.retryDelay a = .ok d) :
    ∃ out, fetchWithRetry env = .ok out ∧
      1 ≤ out.attempts ∧ out.attempts ≤ env.retries + 1 ∧
      (∀ j, j + 1 < out.attempts → ∃ e, (doFetch env j).result = .err e ∧
          j + 1 ≤ env.retries ∧
          shouldRetry env.retryWhen e (j + 1) = .ok true) ∧
      out.result = (doFetch env (out.attempts - 1)).result ∧
      (∀ e, (doFetch env (out.attempts - 1)).result = .err e →
          out.attempts = env.retries + 1 ∨
          shouldRetry env.retryWhen e out.attempts = .ok false) := by
  obtain ⟨out, hrun⟩ := loopTotal env hw hd (env.retries + 1) 0 none
  have hrun' : fetchWithRetry env = .ok out := by
    show retryLoopGo env (env.retries + 1 - 0) 0 none = _
    rw [Nat.sub_zero]
    exact hrun
  obtain ⟨hbound, hzero, hchain, hres⟩ :=
    loopStructure env (env.retries + 1) 0 none out (Nat.zero_le _) (by omega) hrun
  have hpos : 1 ≤ out.attempts := by
    by_contra hlt
    obtain ⟨h0, -, -, -⟩ := hzero (by omega)
    omega
  rcases hres hpos with ⟨hres1, hstop⟩ | ⟨-, -, hflag⟩
  · refine ⟨out, hrun', hpos, by omega, ?_, by simpa using hres1, ?_⟩
    · intro j hj
      simpa using hchain j hj
    · intro e he
      have := hstop e (by simpa using he)
      simpa using this
  · exfalso
    rcases hflag with h | h
    · rw [(hnoabort _).1] at h
      cases h
    · rw [(hnoabort _).2] at h
      cases h

/-- The spec's explicit status-code-retry scenario: `retries = 2`,
`when = [500, 502, 503]`, a transport answering 500 twice then 200. -/
def envStatusRetry : FetchEnv :=
  { inertEnv with
      retries := 2
      retryWhen := some (.statusList [.num 500, .num 502, .num 503])
      responseType := some .text
      transport := fun i => if i < 2 then .response resp500 else .response resp200 }

/-- A status-code eligibility array never throws. -/
lemma shouldRetry_statusList_total (codes : List JV) (e : JSError) (a : Nat) :
    ∃ b, shouldRetry (some (.statusList codes)) e a = .ok b := by
  by_cases h : e.name = ABORT_ERROR
  · exact ⟨false, by simp [shouldRetry, h]⟩
  · exact ⟨isFetchError e && (match e.fetchStatus with
      | some s => statusIncluded codes s
      | none => false), by simp [shouldRetry, h]⟩

/-- C1 witness: the explicit status-code-retry scenario satisfies the loop
characterisation (and indeed makes exactly 3 attempts, settling with the 200
body). -/
theorem fetchT_C1_witness :
    (∃ out, fetchWithRetry envStatusRetry = .ok out ∧
      1 ≤ out.attempts ∧ out.attempts ≤ envStatusRetry.retries + 1 ∧
      (∀ j, j + 1 < out.attempts →
        ∃ e, (doFetch envStatusRetry j).result = .err e ∧
          j + 1 ≤ envStatusRetry.retries ∧
          shouldRetry envStatusRetry.retryWhen e (j + 1) = .ok true) ∧
      out.result = (doFetch envStatusRetry (out.attempts - 1)).result ∧
      (∀ e, (doFetch envStatusRetry (out.attempts - 1)).result = .err e →
          out.attempts = envStatusRetry.retries + 1 ∨
          shouldRetry envStatusRetry.retryWhen e out.attempts = .ok false)) ∧
    fetchWithRetry envStatusRetry =
      .ok { result := .ok (.text "hello")
            attempts := 3
            trace := [.attemptStart 0,
                      .attemptFail 0 (mkFetchError "Internal Server Error" 500),
                      .attemptStart 1,
                      .attemptFail 1 (mkFetchError "Internal Server Error" 500),
                      .attemptStart 2, .attemptOk 2] } :=
  ⟨fetchT_C1 envStatusRetry (fun _ => ⟨rfl, rfl⟩)
    (fun e a => shouldRetry_statusList_total [.num 500, .num 502, .num 503] e a)
    (fun _ => ⟨0, rfl⟩),
   rfl⟩

/-- C3: once a cancellation (user abort) failure is observed, no further
attempt is ever started, for every retry configuration: (1) a cancellation
failure is never retry-eligible; (2) in any settled run, every attempt that
was followed by another one failed with a non-cancellation error; (3) a
cancellation surfacing from an in-flight attempt terminates the call with
that cancellation failure after exactly that attempt; (4) and (5) a
cancellation requested before or during the inter-retry delay terminates the
whole call with the cancellation failure even if retry budget and eligibility
remained. -/
theorem fetchT_C3 :
    (∀ (rw : Option RetryWhen) (e : JSError) (a : Nat),
        e.name = ABORT_ERROR → shouldRetry rw e a = .ok false) ∧
    (∀ (env : FetchEnv) (out : RunOut), fetchWithRetry env = .ok out →
        ∀ j e, j + 1 < out.attempts → (doFetch env j).result = .err e →
          e.name ≠ ABORT_ERROR) ∧
    (∀ (env : FetchEnv) (e : JSError),
        (doFetch env 0).result = .err e → e.name = ABORT_ERROR →
        fetchWithRetry env = .ok
          { result := .err e, attempts := 1,
            trace := [.attemptStart 0, .attemptFail 0 e] }) ∧
    (∀ (env : FetchEnv) (e : JSError),
        env.abortable = true → env.abortedPreDelay 1 = true →
        1 ≤ env.retries →
        (doFetch env 0).result = .err e →
        shouldRetry env.retryWhen e 1 = .ok true →
        fetchWithRetry env = .ok
          { result := .err env.abortReason, attempts := 1,
            trace := [.attemptStart 0, .attemptFail 0 e, .abortObservedPre 1] }) ∧
    (∀ (env : FetchEnv) (e : JSError) (d : Rat),
        env.abortable = true → env.abortedPreDelay 1 = false →
        env.abortedPostDelay 1 = true →
        getRetryDelay env.retryDelay 1 = .ok d → 0 < d →
        1 ≤ env.retries →
        (doFetch env 0).result = .err e →
        shouldRetry env.retryWhen e 1 = .ok true →
        fetchWithRetry env = .ok
          { result := .err env.abortReason, attempts := 1,
            trace := [.attemptStart 0, .attemptFail 0 e, .delayed 1 d,
                      .abortObservedPost 1] }) := by
  refine ⟨shouldRetry_abortName, ?_, ?_, ?_, ?_⟩
  · intro env out hrun j e hj hdo
    have hrun' : retryLoopGo env (env.retries + 1) 0 none = .ok out := by
      have := hrun
      rw [show fetchWithRetry env = retryLoopGo env (env.retries + 1 - 0) 0 none
        from rfl, Nat.sub_zero] at this
      exact this
    obtain ⟨-, -, hchain, -⟩ :=
      loopStructure env (env.retries + 1) 0 none out (Nat.zero_le _) (by omega) hrun'
    obtain ⟨e', hde', -, hsr'⟩ := hchain j (by omega)
    intro hname
    rw [show (0 : Nat) + j = j from by omega] at hde'
    rw [hdo] at hde'
    cases hde'
    rw [shouldRetry_abortName env.retryWhen e (0 + j + 1) hname] at hsr'
    cases hsr'
  · intro env e hdo hname
    have hsr : shouldRetry env.retryWhen e 1 = .ok false :=
      shouldRetry_abortName env.retryWhen e 1 hname
    show retryLoopGo env (env.retries + 1 - 0) 0 none = _
    rw [Nat.sub_zero]
    simp only [retryLoopGo, preRetryPhase_attempt_zero]
    simp [hdo, hsr]
  · intro env e hab hpre1 hr hdo hsr
    obtain ⟨k, hk⟩ : ∃ k, env.retries = k + 1 :=
      ⟨env.retries - 1, by omega⟩
    have hpre : preRetryPhase env 1 (some e) = .ok (.inl
        { result := .err env.abortReason, attempts := 0,
          trace := [.abortObservedPre 1] }) := by
      unfold preRetryPhase
      simp [hab, hpre1]
    show retryLoopGo env (env.retries + 1 - 0) 0 none = _
    rw [Nat.sub_zero, hk]
    simp only [retryLoopGo, preRetryPhase_attempt_zero]
    simp [hdo, hsr, hk, hpre]
  · intro env e d hab hpre1 hpost1 hgd hd hr hdo hsr
    obtain ⟨k, hk⟩ : ∃ k, env.retries = k + 1 :=
      ⟨env.retries - 1, by omega⟩
    have hpre : preRetryPhase env 1 (some e) = .ok (.inl
        { result := .err env.abortReason, attempts := 0,
          trace := [.delayed 1 d, .abortObservedPost 1] }) := by
      unfold preRetryPhase
      simp [hab, hpre1, hpost1, hgd, hd]
    show retryLoopGo env (env.retries + 1 - 0) 0 none = _
    rw [Nat.sub_zero, hk]
    simp only [retryLoopGo, preRetryPhase_attempt_zero]
    simp [hdo, hsr, hk, hpre]

/-- An abortable call with budget 5 and default eligibility whose master
controller is observed aborted at the checkpoint before the first retry's
delay. -/
def envAbortDuringRetry : FetchEnv :=
  { inertEnv with
      retries := 5
      abortable := true
      abortedPreDelay := fun i => i == 1 }

/-- C3 witness: the abortable call with budget remaining performs exactly one
attempt and settles with the cancellation failure. -/
theorem fetchT_C3_witness :
    fetchWithRetry envAbortDuringRetry = .ok
      { result := .err envAbortDuringRetry.abortReason, attempts := 1,
        trace := [.attemptStart 0,
                  .attemptFail 0 { name := "TypeError", message := "network down" },
                  .abortObservedPre 1] } :=
  fetchT_C3.2.2.2.1 envAbortDuringRetry
    { name := "TypeError", message := "network down" }
    rfl rfl (by decide) rfl rfl

/-- The plain network failure of the inert transport. -/
def netError : JSError := { name := "TypeError", message := "network down" }

/-- One retry with a positive fixed delay of 5 ms, an `onRetry` callback, a
transport failing once with a network error and then answering 200. -/
def envDelayedRetry : FetchEnv :=
  { inertEnv with
      retries := 1
      retryDelay := .fixed 5
      hasOnRetry := true
      responseType := some .text
      transport := fun i =>
        if i == 0 then .thrown (.error netError) else .response resp200 }

/-- C5 counterexample: the claim says the retry lifecycle callback fires
immediately before the inter-retry delay; in the code it fires after it.  In
this concrete run the trace shows the delay event at position 2 and the
`onRetry` invocation at position 3, immediately before the retry request at
position 4. -/
theorem fetchT_C5_counterexample :
    fetchWithRetry envDelayedRetry = .ok
      { result := .ok (.text "hello"), attempts := 2,
        trace := [.attemptStart 0, .attemptFail 0 netError, .delayed 1 5,
                  .onRetryCalled 1 netError, .attemptStart 1, .attemptOk 1] } ∧
    [Ev.attemptStart 0, Ev.attemptFail 0 netError, Ev.delayed 1 5,
      Ev.onRetryCalled 1 netError, Ev.attemptStart 1, Ev.attemptOk 1].get? 2 =
      some (.delayed 1 5) ∧
    [Ev.attemptStart 0, Ev.attemptFail 0 netError, Ev.delayed 1 5,
      Ev.onRetryCalled 1 netError, Ev.attemptStart 1, Ev.attemptOk 1].get? 3 =
      some (.onRetryCalled 1 netError) :=
  ⟨rfl, rfl, rfl⟩

/-- C5 (amended): for every retry iteration (beyond the first attempt) of a
call configured with an `onRetry` callback, the callback is invoked
immediately after the inter-retry delay (when a positive delay applies) and
immediately before the retry request, receiving the loop's recorded previous
failure and the 1-indexed number of the retry about to be tried: the
pre-attempt section emits the delay event (if any) followed directly by the
`onRetry` invocation, and the attempt start is the very next event of the
trace. -/
theorem fetchT_C5_amended (env : FetchEnv) (attempt : Nat) (le : Option JSError)
    (d : Rat)
    (hpos : 0 < attempt)
    (hcb : env.hasOnRetry = true)
    (hab1 : (env.abortable && env.abortedPreDelay attempt) = false)
    (hab2 : (env.abortable && env.abortedPostDelay attempt) = false)
    (hgd : getRetryDelay env.retryDelay attempt = .ok d) :
    (preRetryPhase env attempt le = .ok (.inr
        ((if 0 < d then [Ev.delayed attempt d] else []) ++
         [Ev.onRetryCalled attempt (le.getD undefinedError)]))) ∧
    (∀ (fuel : Nat) (preEvs : List Ev) (out : RunOut),
        preRetryPhase env attempt le = .ok (.inr preEvs) →
        retryLoopGo env (fuel + 1) attempt le = .ok out →
        ∃ tail, out.trace = preEvs ++ Ev.attemptStart attempt :: tail) := by
  constructor
  · unfold preRetryPhase
    have ha : ¬attempt = 0 := by omega
    by_cases hd : 0 < d <;>
      simp [ha, hab1, hab2, hgd, hd, preRetryPhase.onRetryEvents, hcb]
  · intro fuel preEvs out hpre hrun
    simp only [retryLoopGo, hpre] at hrun
    cases hdo : (doFetch env attempt).result with
    | ok v =>
      simp only [hdo] at hrun
      have hout := hrun.symm
      rw [Except.ok.injEq] at hout
      subst hout
      exact ⟨[.attemptOk attempt], rfl⟩
    | err e =>
      by_cases hb : attempt + 1 ≤ env.retries
      · cases hsr : shouldRetry env.retryWhen e (attempt + 1) with
        | error v =>
          simp only [hdo, if_pos hb, hsr] at hrun
          cases hrun
        | ok b =>
          cases b with
          | false =>
            simp only [hdo, if_pos hb, hsr] at hrun
            have hout := hrun.symm
            rw [Except.ok.injEq] at hout
            subst hout
            exact ⟨[.attemptFail attempt e], by simp⟩
          | true =>
            cases hrec : retryLoopGo env fuel (attempt + 1) (some e) with
            | error v =>
              simp only [hdo, if_pos hb, hsr, hrec] at hrun
              cases hrun
            | ok rest =>
              simp only [hdo, if_pos hb, hsr, hrec] at hrun
              have hout := hrun.symm
              rw [Except.ok.injEq] at hout
              subst hout
              exact ⟨Ev.attemptFail attempt e :: rest.trace, by simp⟩
      · simp only [hdo, if_neg hb] at hrun
        have hout := hrun.symm
        rw [Except.ok.injEq] at hout
        subst hout
        exact ⟨[.attemptFail attempt e], by simp⟩

/-- C5 amended witness: in the delayed-retry call, the pre-attempt section of
retry 1 is the delay event followed directly by the `onRetry` invocation
carrying attempt 0's network failure and retry number 1. -/
theorem fetchT_C5_amended_witness :
    (preRetryPhase envDelayedRetry 1 (some netError) = .ok (.inr
        ((if (0 : Rat) < 5 then [Ev.delayed 1 5] else []) ++
         [Ev.onRetryCalled 1 ((some netError).getD undefinedError)]))) ∧
    (∀ (fuel : Nat) (preEvs : List Ev) (out : RunOut),
        preRetryPhase envDelayedRetry 1 (some netError) = .ok (.inr preEvs) →
        retryLoopGo envDelayedRetry (fuel + 1) 1 (some netError) = .ok out →
        ∃ tail, out.trace = preEvs ++ Ev.attemptStart 1 :: tail) :=
  fetchT_C5_amended envDelayedRetry 1 (some netError) 5
    (by decide) rfl rfl rfl rfl

/-- The running byte totals of a chunk stream: entry `k` is the sum of the
first `k + 1` chunk lengths plus the accumulator. -/
def cumSums : Nat → List Nat → List Nat
  | _, [] => []
  | acc, c :: cs => (acc + c) :: cumSums (acc + c) cs

/-- The payload of an `onProgress(Ok(...))` invocation, if the event is one. -/
def progressOkOf : ProgressEv → Option (Nat × Nat)
  | .progressOk t c => some (t, c)
  | _ => none

/-- Closed form of the notification loop when the total length is known:
per chunk, the chunk callback (when present) then the cumulative progress
callback — independent of the callbacks' throw behaviour. -/
lemma notifyChunks_some (hc : Bool) (bp bc : Nat → Option JSVal) (L : Nat) :
    ∀ (chunks : List Nat) (k acc : Nat),
      notifyChunks true hc bp bc (some L) k acc chunks =
        (chunks.zip (cumSums acc chunks)).flatMap
          (fun p => (if hc then [ProgressEv.chunkCb p.1] else []) ++
            [ProgressEv.progressOk L p.2]) := by
  intro chunks
  induction chunks with
  | nil => intro k acc; rfl
  | cons c cs ihc =>
    intro k acc
    simp only [notifyChunks, cumSums, List.zip_cons_cons, List.flatMap_cons]
    rw [ihc]
    simp [tryDiscard]

/-- Closed form of the notification loop when the total length is unknown:
only chunk callbacks fire; no byte-count notification is ever emitted. -/
lemma notifyChunks_none (hp hc : Bool) (bp bc : Nat → Option JSVal) :
    ∀ (chunks : List Nat) (k acc : Nat),
      notifyChunks hp hc bp bc none k acc chunks =
        (if hc then chunks.map ProgressEv.chunkCb else []) := by
  intro chunks
  induction chunks with
  | nil => intro k acc; cases hc <;> rfl
  | cons c cs ihc =>
    intro k acc
    simp only [notifyChunks]
    rw [ihc]
    cases hc <;> simp [tryDiscard]

/-- Progress events of the known-length notification loop are exactly the
running totals, in order. -/
lemma notifyChunks_filterMap (hc : Bool) (bp bc : Nat → Option JSVal) (L : Nat) :
    ∀ (chunks : List Nat) (k acc : Nat),
      (notifyChunks true hc bp bc (some L) k acc chunks).filterMap progressOkOf =
        (cumSums acc chunks).map (fun s => (L, s)) := by
  intro chunks k acc
  rw [notifyChunks_some]
  induction chunks generalizing acc with
  | nil => rfl
  | cons c cs ihc =>
    simp only [cumSums, List.zip_cons_cons, List.flatMap_cons, List.map_cons]
    rw [List.filterMap_append, ihc]
    cases hc <;> simp [progressOkOf]

/-- The running totals form a non-decreasing list. -/
lemma cumSums_chain' :
    ∀ (chunks : List Nat) (acc : Nat), List.Chain' (· ≤ ·) (cumSums acc chunks) := by
  intro chunks
  induction chunks with
  | nil => intro acc; simp [cumSums]
  | cons c cs ihc =>
    intro acc
    cases cs with
    | nil => simp [cumSums]
    | cons c2 cs2 =>
      show List.Chain' (· ≤ ·)
        ((acc + c) :: (acc + c + c2) :: cumSums (acc + c + c2) cs2)
      rw [List.chain'_cons]
      exact ⟨by omega, ihc (acc + c)⟩

/-- The running-totals list has one entry per chunk. -/
lemma cumSums_length :
    ∀ (chunks : List Nat) (acc : Nat), (cumSums acc chunks).length = chunks.length := by
  intro chunks
  induction chunks with
  | nil => intro acc; rfl
  | cons c cs ihc => intro acc; simpa [cumSums] using ihc (acc + c)

/-- The last running total is the accumulator plus the stream's byte sum. -/
lemma cumSums_getLast? :
    ∀ (chunks : List Nat) (acc : Nat), chunks ≠ [] →
      (cumSums acc chunks).getLast? = some (acc + chunks.sum) := by
  intro chunks
  induction chunks with
  | nil => intro acc h; exact absurd rfl h
  | cons c cs ihc =>
    intro acc _
    cases hcs : cs with
    | nil => simp [cumSums]
    | cons c2 cs2 =>
      subst hcs
      have h2 : ((acc + c + c2) :: cumSums (acc + c + c2) cs2).getLast? =
          some (acc + c + (c2 :: cs2).sum) := ihc (acc + c) (by simp)
      show ((acc + c) :: (acc + c + c2) :: cumSums (acc + c + c2) cs2).getLast? = _
      rw [List.getLast?_cons_cons, h2]
      simp only [List.sum_cons, Option.some.injEq]
      omega

/-- Mapping over a list maps its last element. -/
lemma getLast?_map_some {α β : Type} (f : α → β) :
    ∀ (l : List α) (a : α), l.getLast? = some a → (l.map f).getLast? = some (f a) := by
  intro l
  induction l with
  | nil => intro a h; cases h
  | cons x xs ih =>
    intro a h
    cases xs with
    | nil =>
      simp only [List.getLast?_singleton, Option.some.injEq] at h
      subst h
      simp
    | cons y ys =>
      rw [List.getLast?_cons_cons] at h
      rw [List.map_cons, List.map_cons, List.getLast?_cons_cons]
      exact ih a h

/-- C8: for an attempt whose response has a body and a known Content-Length,
with `onProgress` registered, `onProgress` is invoked once per chunk in
stream order with the constant total and a cumulative, non-decreasing
completed count that reaches the total at the end (when the chunks sum to
the advertised length); per chunk the chunk callback (when present) precedes
the progress callback; with no Content-Length header, `onProgress` is
invoked exactly once with a failure value and no byte-count notification
occurs for that attempt. -/
theorem fetchT_C8 (bp bc : Nat → Option JSVal) (L : Nat) (chunks : List Nat)
    (hc : Bool) :
    ((setupProgressCallbacks true hc bp bc (some L) chunks).filterMap progressOkOf =
      (cumSums 0 chunks).map (fun s => (L, s))) ∧
    ((setupProgressCallbacks true hc bp bc (some L) chunks).filterMap
        progressOkOf).length = chunks.length ∧
    List.Chain' (· ≤ ·)
      (((setupProgressCallbacks true hc bp bc (some L) chunks).filterMap
        progressOkOf).map Prod.snd) ∧
    (chunks ≠ [] → chunks.sum = L →
      ((setupProgressCallbacks true hc bp bc (some L) chunks).filterMap
        progressOkOf).getLast? = some (L, L)) ∧
    (setupProgressCallbacks true true bp bc (some L) chunks =
      (chunks.zip (cumSums 0 chunks)).flatMap
        (fun p => [ProgressEv.chunkCb p.1, ProgressEv.progressOk L p.2])) ∧
    (setupProgressCallbacks true hc bp bc none chunks =
      ProgressEv.progressErr :: (if hc then chunks.map ProgressEv.chunkCb else [])) := by
  have hfm : (setupProgressCallbacks true hc bp bc (some L) chunks).filterMap
      progressOkOf = (cumSums 0 chunks).map (fun s => (L, s)) := by
    rw [show setupProgressCallbacks true hc bp bc (some L) chunks =
        notifyChunks true hc bp bc (some L) 0 0 chunks from by
      simp [setupProgressCallbacks]]
    rw [notifyChunks_filterMap]
  refine ⟨hfm, ?_, ?_, ?_, ?_, ?_⟩
  · rw [hfm, List.length_map]
    exact cumSums_length chunks 0
  · rw [hfm]
    have hmm : ((cumSums 0 chunks).map (fun s => ((L, s) : Nat × Nat))).map Prod.snd =
        cumSums 0 chunks := by
      rw [List.map_map]
      simp
    rw [hmm]
    exact cumSums_chain' chunks 0
  · intro hne hsum
    have hlast := cumSums_getLast? chunks 0 hne
    rw [Nat.zero_add, hsum] at hlast
    rw [hfm]
    exact getLast?_map_some (fun s => (L, s)) (cumSums 0 chunks) L hlast
  · rw [show setupProgressCallbacks true true bp bc (some L) chunks =
        notifyChunks true true bp bc (some L) 0 0 chunks from by
      simp [setupProgressCallbacks]]
    rw [notifyChunks_some]
    simp
  · rw [show setupProgressCallbacks true hc bp bc none chunks =
        ProgressEv.progressErr :: notifyChunks true hc bp bc none 0 0 chunks from by
      simp [setupProgressCallbacks, tryDiscard]]
    rw [notifyChunks_none]

/-- C8 witness: a known length of 7 split into chunks of 3 and 4 bytes, with
both callbacks registered and a throwing progress callback — the progress
events are (7, 3) then (7, 4 + 3 = 7). -/
theorem fetchT_C8_witness :
    (((setupProgressCallbacks true true (fun _ => some (.str "cb boom"))
        (fun _ => none) (some 7) [3, 4]).filterMap progressOkOf =
      (cumSums 0 [3, 4]).map (fun s => (7, s))) ∧
    ((setupProgressCallbacks true true (fun _ => some (.str "cb boom"))
        (fun _ => none) (some 7) [3, 4]).filterMap progressOkOf).length =
      [3, 4].length ∧
    List.Chain' (· ≤ ·)
      (((setupProgressCallbacks true true (fun _ => some (.str "cb boom"))
        (fun _ => none) (some 7) [3, 4]).filterMap progressOkOf).map Prod.snd) ∧
    ([3, 4] ≠ ([] : List Nat) → [3, 4].sum = 7 →
      ((setupProgressCallbacks true true (fun _ => some (.str "cb boom"))
        (fun _ => none) (some 7) [3, 4]).filterMap progressOkOf).getLast? =
        some (7, 7)) ∧
    (setupProgressCallbacks true true (fun _ => some (.str "cb boom"))
        (fun _ => none) (some 7) [3, 4] =
      (([3, 4].zip (cumSums 0 [3, 4])).flatMap
        (fun p => [ProgressEv.chunkCb p.1, ProgressEv.progressOk 7 p.2]))) ∧
    (setupProgressCallbacks true true (fun _ => some (.str "cb boom"))
        (fun _ => none) none [3, 4] =
      ProgressEv.progressErr ::
        (if true then [3, 4].map ProgressEv.chunkCb else []))) :=
  fetchT_C8 (fun _ => some (.str "cb boom")) (fun _ => none) 7 [3, 4] true

/-- The environment with the three guarded callbacks' throw behaviours
replaced — the model of installing differently-(mis)behaving `onRetry`,
`onProgress` and `onChunk` callbacks in an otherwise identical call. -/
def withCallbackBehaviors (env : FetchEnv) (br bp bc : Nat → Option JSVal) :
    FetchEnv :=
  { env with
      onRetryThrow := br
      onProgressThrow := bp
      onChunkThrow := bc }

/-- The notification loop's output does not depend on the throw behaviour of
the guarded callbacks (nor on the invocation counter feeding them). -/
lemma notifyChunks_irrel (hp hc : Bool) (total : Option Nat)
    (b1 b2 b1' b2' : Nat → Option JSVal) :
    ∀ (chunks : List Nat) (k k' acc : Nat),
      notifyChunks hp hc b1 b2 total k acc chunks =
        notifyChunks hp hc b1' b2' total k' acc chunks := by
  intro chunks
  induction chunks with
  | nil => intro k k' acc; rfl
  | cons c cs ihc =>
    intro k k' acc
    simp only [notifyChunks]
    rw [ihc (k + 1) (k' + 1)]

/-- `setupProgressCallbacks` delivers the same notification sequence whatever
the registered callbacks throw. -/
lemma setupProgressCallbacks_irrel (hp hc : Bool)
    (b1 b2 b1' b2' : Nat → Option JSVal) (cl : Option Nat) (chunks : List Nat) :
    setupProgressCallbacks hp hc b1 b2 cl chunks =
      setupProgressCallbacks hp hc b1' b2' cl chunks := by
  simp only [setupProgressCallbacks]
  rw [notifyChunks_irrel hp hc _ b1 b2 b1' b2' chunks 0 0 0]

/-- A `doFetch` attempt is unaffected by the guarded callbacks' throw
behaviour. -/
lemma doFetch_irrel (env : FetchEnv) (br bp bc : Nat → Option JSVal) (i : Nat) :
    doFetch (withCallbackBehaviors env br bp bc) i = doFetch env i := by
  have hsetup := setupProgressCallbacks_irrel env.hasOnProgress env.hasOnChunk
    bp bc env.onProgressThrow env.onChunkThrow
  cases ht : env.transport i with
  | response resp =>
    by_cases hok : respOk resp <;>
      simp [doFetch, withCallbackBehaviors, processResponse, ht, hok, hsetup]
  | thrown v =>
    simp [doFetch, withCallbackBehaviors, ht]

/-- The pre-attempt section is unaffected by the guarded callbacks' throw
behaviour (`onRetry`'s outcome is discarded at its call site). -/
lemma preRetryPhase_irrel (env : FetchEnv) (br bp bc : Nat → Option JSVal)
    (a : Nat) (le : Option JSError) :
    preRetryPhase (withCallbackBehaviors env br bp bc) a le =
      preRetryPhase env a le := rfl

/-- The whole retry loop is unaffected by the guarded callbacks' throw
behaviour. -/
lemma retryLoopGo_irrel (env : FetchEnv) (br bp bc : Nat → Option JSVal) :
    ∀ (fuel a : Nat) (le : Option JSError),
      retryLoopGo (withCallbackBehaviors env br bp bc) fuel a le =
        retryLoopGo env fuel a le := by
  intro fuel
  induction fuel with
  | zero => intro a le; rfl
  | succ n ih =>
    intro a le
    simp only [retryLoopGo, preRetryPhase_irrel, doFetch_irrel]
    simp only [show (withCallbackBehaviors env br bp bc).retryWhen = env.retryWhen
        from rfl,
      show (withCallbackBehaviors env br bp bc).retries = env.retries from rfl]
    simp only [ih]

/-- C9: any error thrown by a caller-supplied `onProgress`, `onChunk`, or
`onRetry` callback is caught and discarded at its invocation site and has no
effect on the call's final `Result`: with throwing callbacks installed, the
settled run (result, attempt count, trace) is identical to the run with
non-throwing callbacks, and the notification sequence itself is likewise
unchanged. -/
theorem fetchT_C9 :
    (∀ (env : FetchEnv) (br bp bc : Nat → Option JSVal),
        fetchWithRetry (withCallbackBehaviors env br bp bc) = fetchWithRetry env) ∧
    (∀ (env : FetchEnv) (br bp bc : Nat → Option JSVal) (i : Nat),
        doFetch (withCallbackBehaviors env br bp bc) i = doFetch env i) ∧
    (∀ (hp hc : Bool) (b1 b2 b1' b2' : Nat → Option JSVal) (cl : Option Nat)
        (chunks : List Nat),
        setupProgressCallbacks hp hc b1 b2 cl chunks =
          setupProgressCallbacks hp hc b1' b2' cl chunks) := by
  refine ⟨?_, doFetch_irrel, setupProgressCallbacks_irrel⟩
  intro env br bp bc
  show retryLoopGo _ ((withCallbackBehaviors env br bp bc).retries + 1 - 0) 0 none = _
  rw [show (withCallbackBehaviors env br bp bc).retries = env.retries from rfl]
  exact retryLoopGo_irrel env br bp bc (env.retries + 1 - 0) 0 none

/-- C9 witness: installing an always-throwing `onRetry`, `onProgress` and
`onChunk` into the delayed-retry call leaves the settled run unchanged. -/
theorem fetchT_C9_witness :
    fetchWithRetry (withCallbackBehaviors envDelayedRetry
        (fun _ => some (.str "onRetry boom")) (fun _ => some (.str "onProgress boom"))
        (fun _ => some (.str "onChunk boom"))) =
      fetchWithRetry envDelayedRetry :=
  fetchT_C9.1 envDelayedRetry (fun _ => some (.str "onRetry boom"))
    (fun _ => some (.str "onProgress boom")) (fun _ => some (.str "onChunk boom"))

/-- A configuration is invalid per the validator's rules iff one of its
guards fires: responseType outside the enumeration, timeout not a positive
number, onProgress/onChunk not callable, retry count not a non-negative
integer, retry delay not a non-negative number or callable, `when` not an
array or callable, `onRetry` not callable. -/
def invalidInit (init : RawInit) : Bool :=
  match parseRetryFields init.retry with
  | (retriesJ, delayJ, whenJ, onRetryJ) =>
    (!init.responseType.isNullish && !jvValidResponseType init.responseType) ||
    (!init.timeout.isNullish && !init.timeout.isNum) ||
    (!init.timeout.isNullish && init.timeout.isNonPosNum) ||
    (!init.onProgress.isNullish && !init.onProgress.isFunc) ||
    (!init.onChunk.isNullish && !init.onChunk.isFunc) ||
    !retriesJ.isInteger || retriesJ.isNegNum ||
    delayJ.isNegNum || (!delayJ.isNum && !delayJ.isFunc) ||
    (!whenJ.isNullish && !whenJ.isArr && !whenJ.isFunc) ||
    (!onRetryJ.isNullish && !onRetryJ.isFunc)

/-- A configuration the validator accepts fires no guard. -/
lemma validateOptions_ok_not_invalid (init : RawInit) (p : ParsedRetryOptions)
    (h : validateOptions init = .ok p) : invalidInit init = false := by
  rcases hpr : parseRetryFields init.retry with ⟨rj, dj, wj, oj⟩
  simp only [validateOptions, hpr] at h
  simp only [invalidInit, hpr]
  by_cases g1 : (!init.responseType.isNullish && !jvValidResponseType init.responseType) = true
  · simp only [if_pos g1] at h
    exact Except.noConfusion h
  · simp only [if_neg g1] at h
    by_cases g2 : (!init.timeout.isNullish && !init.timeout.isNum) = true
    · simp only [if_pos g2] at h
      exact Except.noConfusion h
    · simp only [if_neg g2] at h
      by_cases g3 : (!init.timeout.isNullish && init.timeout.isNonPosNum) = true
      · simp only [if_pos g3] at h
        exact Except.noConfusion h
      · simp only [if_neg g3] at h
        by_cases g4 : (!init.onProgress.isNullish && !init.onProgress.isFunc) = true
        · simp only [if_pos g4] at h
          exact Except.noConfusion h
        · simp only [if_neg g4] at h
          by_cases g5 : (!init.onChunk.isNullish && !init.onChunk.isFunc) = true
          · simp only [if_pos g5] at h
            exact Except.noConfusion h
          · simp only [if_neg g5] at h
            by_cases g6 : (!rj.isInteger) = true
            · simp only [if_pos g6] at h
              exact Except.noConfusion h
            · simp only [if_neg g6] at h
              by_cases g7 : rj.isNegNum = true
              · simp only [if_pos g7] at h
                exact Except.noConfusion h
              · simp only [if_neg g7] at h
                by_cases g8 : dj.isNegNum = true
                · simp only [if_pos g8] at h
                  exact Except.noConfusion h
                · simp only [if_neg g8] at h
                  by_cases g9 : (!dj.isNum && !dj.isFunc) = true
                  · simp only [if_pos g9] at h
                    exact Except.noConfusion h
                  · simp only [if_neg g9] at h
                    by_cases g10 : (!wj.isNullish && !wj.isArr && !wj.isFunc) = true
                    · simp only [if_pos g10] at h
                      exact Except.noConfusion h
                    · simp only [if_neg g10] at h
                      by_cases g11 : (!oj.isNullish && !oj.isFunc) = true
                      · simp only [if_pos g11] at h
                        exact Except.noConfusion h
                      · simp only [if_neg g11] at h
                        simp only [Bool.of_not_eq_true g1, Bool.of_not_eq_true g2, Bool.of_not_eq_true g3, Bool.of_not_eq_true g4, Bool.of_not_eq_true g5, Bool.of_not_eq_true g6, Bool.of_not_eq_true g7, Bool.of_not_eq_true g8, Bool.of_not_eq_true g9, Bool.of_not_eq_true g10, Bool.of_not_eq_true g11, Bool.or_false, Bool.false_or]

/-- C7: for every configuration value that is invalid per the validator's
rules, the entry point throws synchronously — the thrown validation error is
produced before, and independently of, any timer or network activity (for
every choice of runtime collaborators the call is the same synchronous
throw), and never surfaces as a rejected promise or a failure `Result`. -/
theorem fetchT_C7 (init : RawInit) (h : invalidInit init = true) :
    ∃ e, validateOptions init = .error e ∧
      ∀ dyn : DynOracles, fetchTModel init dyn = .error e := by
  cases hvo : validateOptions init with
  | error e =>
    exact ⟨e, rfl, fun dyn => by simp [fetchTModel, hvo]⟩
  | ok p =>
    rw [validateOptions_ok_not_invalid init p hvo] at h
    cases h

/-- A configuration with `timeout: 0` — invalid, as timeouts must be
positive. -/
def initBadTimeout : RawInit := { timeout := .num 0 }

/-- C7 witness: the entry point invoked with `timeout: 0` throws the
synchronous timeout validation error for every runtime collaborator
choice. -/
theorem fetchT_C7_witness :
    ∃ e, validateOptions initBadTimeout = .error e ∧
      ∀ dyn : DynOracles, fetchTModel initBadTimeout dyn = .error e :=
  fetchT_C7 initBadTimeout rfl

end FetchT